import Mathlib

/-!
Verification of the GitOps module/namespace CLI commands of
ibm-garage-cloud-cli against their specification.

The embedding is shallow: each TypeScript function of the repository is
translated into a Lean definition over explicit data.  Asynchronous calls
to external collaborators (the mutex implementation, the GitOpsModuleApi
service) are parameterised by their outcome (an `Except` value), and the
JavaScript `try`/`catch`/`finally` completion semantics is embedded as an
explicit combinator over state-passing computations.
-/

namespace GarageCloudCli

/-- Errors surfaced through JavaScript promise rejection.  `thrown` is an
exception raised (or a promise rejected) by application code; `typeError`
is a TypeError raised by the runtime itself, e.g. when a method is invoked
on `undefined`. -/
inductive JsError where
  | thrown (msg : String)
  | typeError (msg : String)
  deriving Repr, DecidableEq

/-- The observable state of one `commonHandler` run
(src/commands/support/gitops-module-common.ts): the `claim` local variable
(`none` models the JavaScript `undefined` before assignment), the number of
times `claim.release()` actually ran, and the messages printed with
`console.error`. -/
structure HandlerState where
  claim : Option Unit
  releaseCalls : Nat
  consoleErrors : List String
  deriving Repr, DecidableEq

/-- JavaScript `try { body } catch (e) { handler } finally { fin }`
completion semantics over state-passing computations: if the body throws,
the handler runs and its completion replaces the body's; the finally block
always runs, and if it throws, its exception replaces whatever completion
the try/catch produced. -/
def tryCatchFinally {σ α : Type}
    (body : σ → Except JsError α × σ)
    (handler : JsError → σ → Except JsError α × σ)
    (fin : σ → Except JsError Unit × σ) :
    σ → Except JsError α × σ :=
  fun s0 =>
    let r1 := body s0
    let r2 :=
      match r1.1 with
      | Except.ok a => (Except.ok a, r1.2)
      | Except.error e => handler e r1.2
    let rf := fin r2.2
    match rf.1 with
    | Except.ok _ => (r2.1, rf.2)
    | Except.error e => (Except.error e, rf.2)

/-- Shallow embedding of `commonHandler`
(src/commands/support/gitops-module-common.ts lines 19-31), parameterised
by the outcome of the two awaited calls: `claimResult` is what
`await mutex.claim({name, namespace, contentDir})` does, and
`populateResult` is what `await service.populate(argv)` does.  The body
assigns the `claim` variable only when `mutex.claim` resolves; the catch
block logs and swallows every error; the finally block invokes
`claim.release()` — when `claim` was never assigned this is a method call
on `undefined`, which raises a TypeError. -/
def commonHandlerRun (claimResult : Except JsError Unit)
    (populateResult : Except JsError Unit) :
    Except JsError Unit × HandlerState :=
  tryCatchFinally
    (fun s =>
      match claimResult with
      | Except.error e => (Except.error e, s)
      | Except.ok c =>
        let s1 : HandlerState := { s with claim := some c }
        match populateResult with
        | Except.error e => (Except.error e, s1)
        | Except.ok _ => (Except.ok (), s1))
    (fun _ s =>
      (Except.ok (), { s with consoleErrors := s.consoleErrors ++ ["Error running populate"] }))
    (fun s =>
      match s.claim with
      | none => (Except.error (JsError.typeError "Cannot read properties of undefined"), s)
      | some _ => (Except.ok (), { s with releaseCalls := s.releaseCalls + 1 }))
    { claim := none, releaseCalls := 0, consoleErrors := [] }

/-- The two mutex implementations `createMutex` can return: the pessimistic
filesystem `Mutex` (constructed with a tmp directory and a scope) or the
`NoopMutex`. -/
inductive IMutex where
  | mutex (tmpDir : String) (scope : String)
  | noopMutex
  deriving Repr, DecidableEq

/-- Shallow embedding of `createMutex`
(src/commands/support/gitops-module-common.ts lines 33-39).  The logger
argument carries no behaviour relevant to the returned variant and is
elided. -/
def createMutex (lock : String) (tmpDir : String) (scope : String) : IMutex :=
  if lock == "pessimistic" || lock == "p" then IMutex.mutex tmpDir scope
  else IMutex.noopMutex

/-- The condition under which `commonHandler` rebinds `GitOpsModuleApi` to
`GitopsModulePRImpl` (src/commands/support/gitops-module-common.ts lines
11-13): exactly when the lock argument is "branch" or "b". -/
def bindsGitopsModulePRImpl (lock : String) : Bool :=
  lock == "branch" || lock == "b"

/-- Modelled from the spec: the NoopMutex claim operation (the file
src/util/mutex is not among the repository files available here; the spec
states that for the no-op variant `claim` returns immediately with a
trivial claim). -/
def NoopMutex.claim (key : String × String × String) : Except JsError Unit :=
  Except.ok ()

/-- Modelled from the spec: the NoopMutex release operation (src/util/mutex
is not among the repository files available here; the spec states that
`release` is a no-op). -/
def NoopMutex.release (s : HandlerState) : HandlerState :=
  s

/-- Yargs option default values: absent, a string, or a boolean. -/
inductive YargsDefault where
  | noDefault
  | str (s : String)
  | bool (b : Bool)
  deriving Repr, DecidableEq

/-- One yargs option declaration, keeping the fields the verification
concerns: the option name, its declared conflicting option, its choices
list, its default value and whether it is demanded.  Descriptions, aliases
and value types are elided. -/
structure YargsOption where
  name : String
  conflicts : Option String := none
  choices : List String := []
  defaultVal : YargsDefault := YargsDefault.noDefault
  demandOption : Bool := false
  deriving Repr, DecidableEq

/-- The process environment variables the two command builders read. -/
structure ProcessEnv where
  LOCK : Option String := none
  IGNORE_DIFF : Option String := none
  deriving Repr, DecidableEq

/-- JavaScript `a || b` for a possibly-undefined string (a process.env
lookup): undefined and the empty string are falsy, any other string value
is returned unchanged. -/
def jsOrElse (a : Option String) (b : String) : String :=
  match a with
  | some s => if s = "" then b else s
  | none => b

/-- JavaScript `default: process.env.IGNORE_DIFF` as a yargs default:
an undefined environment variable leaves the option without a default. -/
def envDefault (a : Option String) : YargsDefault :=
  match a with
  | some s => YargsDefault.str s
  | none => YargsDefault.noDefault

/-- The GitOpsLayer string enumeration
(src/services/gitops-module/gitops-module.api.ts lines 35-39). -/
inductive GitOpsLayer where
  | infrastructure
  | services
  | applications
  deriving Repr, DecidableEq

/-- The string value each GitOpsLayer member is declared with. -/
def GitOpsLayer.value : GitOpsLayer → String
  | GitOpsLayer.infrastructure => "infrastructure"
  | GitOpsLayer.services => "services"
  | GitOpsLayer.applications => "applications"

/-- Shallow embedding of the gitops-namespace yargs builder
(src/commands/gitops-namespace.ts lines 8-117): the declared positional and
options in source order.  The builder reads process.env when it runs, so it
is a function of the environment; the values of defaultAutoMerge() and
defaultRateLimit() (declared in src/commands/support/gitops-module-common.ts
but not among the repository files available here) are passed in as
parameters. -/
def gitopsNamespaceBuilder (env : ProcessEnv) (autoMergeDefault rateLimitDefault : Bool) :
    List YargsOption :=
  [ { name := "name", demandOption := true },
    { name := "contentDir" },
    { name := "namespace", defaultVal := YargsDefault.str "default" },
    { name := "gitopsConfigFile", conflicts := some "bootstrapRepoUrl" },
    { name := "bootstrapRepoUrl", conflicts := some "gitopsConfigFile" },
    { name := "gitopsCredentialsFile", conflicts := some "token" },
    { name := "token", conflicts := some "gitopsCredentialsFile" },
    { name := "applicationPath" },
    { name := "branch" },
    { name := "serverName" },
    { name := "valueFiles" },
    { name := "lock",
      choices := ["optimistic", "pessimistic", "branch", "o", "p", "b"],
      defaultVal := YargsDefault.str (jsOrElse env.LOCK "branch") },
    { name := "autoMerge", defaultVal := YargsDefault.bool autoMergeDefault },
    { name := "delete", defaultVal := YargsDefault.bool false },
    { name := "ignoreDiff", defaultVal := envDefault env.IGNORE_DIFF },
    { name := "rateLimit", defaultVal := YargsDefault.bool rateLimitDefault },
    { name := "cascadingDelete", defaultVal := YargsDefault.bool true },
    { name := "tmpDir", defaultVal := YargsDefault.str "/tmp/gitops-module/" },
    { name := "debug" } ]

/-- Shallow embedding of the gitops-module yargs builder
(src/commands/gitops-namespace.ts lines 129-261): the declared positional
and options in source order, under the same conventions as
gitopsNamespaceBuilder.  The layer option's choices are the GitOpsLayer
enumeration members, which at runtime are their string values. -/
def gitopsModuleBuilder (env : ProcessEnv) (autoMergeDefault rateLimitDefault : Bool) :
    List YargsOption :=
  [ { name := "name", demandOption := true },
    { name := "contentDir" },
    { name := "namespace", demandOption := true },
    { name := "layer",
      choices := [GitOpsLayer.infrastructure.value, GitOpsLayer.services.value,
                  GitOpsLayer.applications.value] },
    { name := "gitopsConfigFile", conflicts := some "bootstrapRepoUrl" },
    { name := "bootstrapRepoUrl", conflicts := some "gitopsConfigFile" },
    { name := "gitopsCredentialsFile", conflicts := some "token" },
    { name := "token", conflicts := some "gitopsCredentialsFile" },
    { name := "applicationPath" },
    { name := "branch" },
    { name := "type", choices := ["base", "operators", "instances"],
      defaultVal := YargsDefault.str "base" },
    { name := "serverName" },
    { name := "valueFiles" },
    { name := "lock",
      choices := ["optimistic", "pessimistic", "branch", "o", "p", "b"],
      defaultVal := YargsDefault.str (jsOrElse env.LOCK "branch") },
    { name := "autoMerge", defaultVal := YargsDefault.bool autoMergeDefault },
    { name := "delete", defaultVal := YargsDefault.bool false },
    { name := "ignoreDiff", defaultVal := envDefault env.IGNORE_DIFF },
    { name := "rateLimit", defaultVal := YargsDefault.bool rateLimitDefault },
    { name := "cascadingDelete", defaultVal := YargsDefault.bool true },
    { name := "tmpDir", defaultVal := YargsDefault.str "/tmp/gitops-module" },
    { name := "debug" } ]

/-- Look an option up by name in a builder's declared option list. -/
def findOption (opts : List YargsOption) (n : String) : Option YargsOption :=
  opts.find? (fun o => o.name == n)

/-- Modelled from the documented yargs semantics of `conflicts`: parsing is
rejected when an option and its declared conflicting option are both
provided on the command line, before any handler runs. -/
def conflictsViolated (opts : List YargsOption) (provided : List String) : Bool :=
  opts.any fun o =>
    match o.conflicts with
    | some c => provided.contains o.name && provided.contains c
    | none => false

/-- An option that is in the list, declares a conflict, and is provided
together with its conflicting option makes parsing fail. -/
theorem conflictsViolated_of_mem (opts : List YargsOption) (provided : List String)
    (o : YargsOption) (c : String) (ho : o ∈ opts) (hc : o.conflicts = some c)
    (h1 : o.name ∈ provided) (h2 : c ∈ provided) :
    conflictsViolated opts provided = true := by
  apply List.any_eq_true.mpr
  refine ⟨o, ho, ?_⟩
  rw [hc]
  have e1 : provided.contains o.name = true := List.elem_eq_true_of_mem h1
  have e2 : provided.contains c = true := List.elem_eq_true_of_mem h2
  simp [e1, e2]
  exact ⟨h1, h2⟩

/-- The parsed argument object the two gitops commands receive
(Arguments of GitOpsModuleOptions plus debug and lock): one field per
declared option, with undefined modelled as none.  The source field called
namespace is a reserved word here. -/
structure GitopsArgs where
  name : String
  contentDir : Option String
  «namespace» : String
  gitopsConfigFile : Option String
  bootstrapRepoUrl : Option String
  gitopsCredentialsFile : Option String
  token : Option String
  applicationPath : Option String
  branch : Option String
  serverName : Option String
  valueFiles : Option String
  lock : String
  autoMerge : Option Bool
  delete : Option Bool
  ignoreDiff : Option String
  rateLimit : Option Bool
  cascadingDelete : Option Bool
  tmpDir : String
  debug : Option Bool
  isNamespace : Option Bool
  layer : Option String
  deriving Repr, DecidableEq

/-- Shallow embedding of the gitops-namespace handler
(src/commands/gitops-namespace.ts lines 118-128): the object built by
Object.assign of an empty object, argv, and the record overriding
isNamespace and layer, which is what the handler passes to commonHandler. -/
def gitopsNamespaceHandlerArgs (argv : GitopsArgs) : GitopsArgs :=
  { argv with isNamespace := some true, layer := some "infrastructure" }

/-- A SecurityContextConstraints object as setupTektonPipelineSA uses it
(src/services/namespace/namespace.ts): the metadata name and the users
list.  The structure keeps the source interface's spelling
SecurityContextContraints. -/
structure SecurityContextContraints where
  metadataName : String
  users : List String
  deriving Repr, DecidableEq

/-- The user entry setupTektonPipelineSA manages for a namespace: the
template literal system:serviceaccount: followed by the namespace and
:pipeline. -/
def pipelineSAUser (ns : String) : String :=
  "system:serviceaccount:" ++ ns ++ ":pipeline"

/-- Shallow embedding of NamespaceImpl.setupTektonPipelineSA
(src/services/namespace/namespace.ts lines 418-430) as a function of the
privileged SCC fetched from the cluster: when the pipeline service-account
user is not already in the SCC's users list, it is pushed and an update is
issued; otherwise nothing happens.  The result is the SCC state after the
call together with whether sccs.update was invoked. -/
def setupTektonPipelineSA (ns : String) (privilegedSCC : SecurityContextContraints) :
    SecurityContextContraints × Bool :=
  let users := privilegedSCC.users
  let pipelineSA := pipelineSAUser ns
  if !(users.contains pipelineSA) then
    ({ privilegedSCC with users := users ++ [pipelineSA] }, true)
  else
    (privilegedSCC, false)

/-- The Kubernetes resource collections the namespace service copies. -/
inductive ResourceKind where
  | configMaps
  | secrets
  | tektonPipelines
  deriving Repr, DecidableEq

/-- One copyAll invocation as issued by the namespace service: the
collection, the source namespace and optional labelSelector of the list
options, and the target namespace. -/
structure CopyAllCall where
  resource : ResourceKind
  fromNamespace : String
  labelSelector : Option String
  toNamespace : String
  deriving Repr, DecidableEq

/-- Shallow embedding of NamespaceImpl.copyConfigMaps
(src/services/namespace/namespace.ts lines 220-228): the copyAll call it
issues, or none when toNamespace equals fromNamespace (the early return). -/
def copyConfigMaps (toNamespace fromNamespace : String) : Option CopyAllCall :=
  if toNamespace == fromNamespace then none
  else some { resource := ResourceKind.configMaps, fromNamespace := fromNamespace,
              labelSelector := some "group=catalyst-tools", toNamespace := toNamespace }

/-- Shallow embedding of NamespaceImpl.copySecrets
(src/services/namespace/namespace.ts lines 230-238). -/
def copySecrets (toNamespace fromNamespace : String) : Option CopyAllCall :=
  if toNamespace == fromNamespace then none
  else some { resource := ResourceKind.secrets, fromNamespace := fromNamespace,
              labelSelector := some "group=catalyst-tools", toNamespace := toNamespace }

/-- Shallow embedding of NamespaceImpl.copyPipelines
(src/services/namespace/namespace.ts lines 240-246). -/
def copyPipelines (toNamespace fromNamespace : String) : Option CopyAllCall :=
  if toNamespace == fromNamespace then none
  else some { resource := ResourceKind.tektonPipelines, fromNamespace := fromNamespace,
              labelSelector := none, toNamespace := toNamespace }

/-- C1: the claim states that when `mutex.claim` itself fails the handler
still completes with a failed result and the release step is a harmless
no-op.  The code is a slip there: `claim` is still `undefined` in the
finally block, so `claim.release()` raises a TypeError which replaces the
handler's completion — `commonHandler` rejects with a new runtime error and
no release ever runs.  This theorem evaluates the embedded handler on the
failing input (a claim timeout) and, for contrast, on the two paths where
`mutex.claim` succeeds, where release is indeed invoked exactly once. -/
theorem c1_release_on_exit_paths :
    (commonHandlerRun (Except.error (JsError.thrown "LockTimeoutError")) (Except.ok ()) =
      (Except.error (JsError.typeError "Cannot read properties of undefined"),
       { claim := none, releaseCalls := 0, consoleErrors := ["Error running populate"] }))
    ∧ ((commonHandlerRun (Except.ok ()) (Except.ok ())).2.releaseCalls = 1)
    ∧ ((commonHandlerRun (Except.ok ()) (Except.error (JsError.thrown "MaterializationError"))).2.releaseCalls = 1) := by
  refine ⟨rfl, rfl, rfl⟩

/-- C2 counterexample: `service.populate` rejecting does not make
`commonHandler` reject.  At the concrete input where populate rejects with
a MaterializationError, the promise returned by the handler resolves
normally (the catch block swallowed the error). -/
theorem c2_populate_error_swallowed :
    (commonHandlerRun (Except.ok ()) (Except.error (JsError.thrown "MaterializationError"))).1 =
      Except.ok () := by
  rfl

/-- C2 amended: for every error thrown by `service.populate`, the handler
catches it, logs "Error running populate" to console.error, releases the
claimed mutex exactly once, and the promise returned by `commonHandler`
resolves normally — the error is not surfaced to the caller. -/
theorem c2_populate_error_logged_and_released (e : JsError) :
    commonHandlerRun (Except.ok ()) (Except.error e) =
      (Except.ok (),
       { claim := some (), releaseCalls := 1, consoleErrors := ["Error running populate"] }) := by
  rfl

/-- C3: `createMutex` returns the pessimistic filesystem `Mutex` exactly
when the lock argument is "pessimistic" or "p" and the `NoopMutex` for
every other value; `commonHandler` rebinds the PR-based implementation
exactly when the lock argument is "branch" or "b"; and the NoopMutex, as
specified, claims immediately with a trivial claim and releases without
changing anything. -/
theorem c3_createMutex_variants (lock tmpDir scope : String)
    (key : String × String × String) (s : HandlerState) :
    (createMutex lock tmpDir scope = IMutex.mutex tmpDir scope ↔
      lock = "pessimistic" ∨ lock = "p")
    ∧ (createMutex lock tmpDir scope = IMutex.noopMutex ↔
      ¬ (lock = "pessimistic" ∨ lock = "p"))
    ∧ (bindsGitopsModulePRImpl lock = true ↔ lock = "branch" ∨ lock = "b")
    ∧ NoopMutex.claim key = Except.ok ()
    ∧ NoopMutex.release s = s := by
  refine ⟨?_, ?_, ?_, rfl, rfl⟩
  · by_cases h : lock = "pessimistic" ∨ lock = "p"
    · simp [createMutex, h]
    · have hb : (lock == "pessimistic" || lock == "p") = false := by
        simp only [Bool.or_eq_false_iff, beq_eq_false_iff_ne, ne_eq]
        exact ⟨fun hp => h (Or.inl hp), fun hp => h (Or.inr hp)⟩
      simp [createMutex, hb, h]
  · by_cases h : lock = "pessimistic" ∨ lock = "p"
    · have hb : (lock == "pessimistic" || lock == "p") = true := by
        rcases h with h | h <;> simp [h]
      simp [createMutex, hb, h]
    · have hb : (lock == "pessimistic" || lock == "p") = false := by
        simp only [Bool.or_eq_false_iff, beq_eq_false_iff_ne, ne_eq]
        exact ⟨fun hp => h (Or.inl hp), fun hp => h (Or.inr hp)⟩
      simp [createMutex, hb, h]
  · simp [bindsGitopsModulePRImpl]

/-- C4: the GitOpsLayer enumeration has exactly the members
infrastructure, services and applications, the gitops-module command's
layer option lists exactly the enumeration members as its choices, and a
string is such a choice exactly when it is the value of an enumeration
member. -/
theorem c4_layer_enumeration (env : ProcessEnv) (am rl : Bool) :
    (∀ l : GitOpsLayer,
      l = GitOpsLayer.infrastructure ∨ l = GitOpsLayer.services ∨ l = GitOpsLayer.applications)
    ∧ ((findOption (gitopsModuleBuilder env am rl) "layer").map YargsOption.choices =
        some ["infrastructure", "services", "applications"])
    ∧ (∀ s : String, (∃ l : GitOpsLayer, l.value = s) ↔
        s ∈ ["infrastructure", "services", "applications"]) := by
  refine ⟨?_, rfl, ?_⟩
  · intro l
    cases l
    · exact Or.inl rfl
    · exact Or.inr (Or.inl rfl)
    · exact Or.inr (Or.inr rfl)
  · intro s
    constructor
    · rintro ⟨l, hl⟩
      cases l <;> rw [← hl] <;> simp [GitOpsLayer.value]
    · intro hs
      rcases List.mem_cons.mp hs with h | hs
      · exact ⟨GitOpsLayer.infrastructure, h.symm⟩
      rcases List.mem_cons.mp hs with h | hs
      · exact ⟨GitOpsLayer.services, h.symm⟩
      rcases List.mem_cons.mp hs with h | hs
      · exact ⟨GitOpsLayer.applications, h.symm⟩
      · exact absurd hs (List.not_mem_nil s)

/-- C5: both commands declare gitopsConfigFile and bootstrapRepoUrl as
mutually conflicting options, and gitopsCredentialsFile and token likewise;
a command line providing both members of either pair violates the declared
conflicts, so parsing rejects it before any handler (and hence any network
or filesystem activity) runs. -/
theorem c5_conflicting_options (env : ProcessEnv) (am rl : Bool) (provided : List String) :
    ((findOption (gitopsNamespaceBuilder env am rl) "gitopsConfigFile").map YargsOption.conflicts
      = some (some "bootstrapRepoUrl"))
    ∧ ((findOption (gitopsNamespaceBuilder env am rl) "bootstrapRepoUrl").map YargsOption.conflicts
      = some (some "gitopsConfigFile"))
    ∧ ((findOption (gitopsNamespaceBuilder env am rl) "gitopsCredentialsFile").map YargsOption.conflicts
      = some (some "token"))
    ∧ ((findOption (gitopsNamespaceBuilder env am rl) "token").map YargsOption.conflicts
      = some (some "gitopsCredentialsFile"))
    ∧ ((findOption (gitopsModuleBuilder env am rl) "gitopsConfigFile").map YargsOption.conflicts
      = some (some "bootstrapRepoUrl"))
    ∧ ((findOption (gitopsModuleBuilder env am rl) "bootstrapRepoUrl").map YargsOption.conflicts
      = some (some "gitopsConfigFile"))
    ∧ ((findOption (gitopsModuleBuilder env am rl) "gitopsCredentialsFile").map YargsOption.conflicts
      = some (some "token"))
    ∧ ((findOption (gitopsModuleBuilder env am rl) "token").map YargsOption.conflicts
      = some (some "gitopsCredentialsFile"))
    ∧ ("gitopsConfigFile" ∈ provided ∧ "bootstrapRepoUrl" ∈ provided →
        conflictsViolated (gitopsNamespaceBuilder env am rl) provided = true
        ∧ conflictsViolated (gitopsModuleBuilder env am rl) provided = true)
    ∧ ("gitopsCredentialsFile" ∈ provided ∧ "token" ∈ provided →
        conflictsViolated (gitopsNamespaceBuilder env am rl) provided = true
        ∧ conflictsViolated (gitopsModuleBuilder env am rl) provided = true) := by
  refine ⟨rfl, rfl, rfl, rfl, rfl, rfl, rfl, rfl, ?_, ?_⟩
  · rintro ⟨h1, h2⟩
    constructor
    · exact conflictsViolated_of_mem (gitopsNamespaceBuilder env am rl) provided
        { name := "gitopsConfigFile", conflicts := some "bootstrapRepoUrl" }
        "bootstrapRepoUrl" (by simp [gitopsNamespaceBuilder]) rfl h1 h2
    · exact conflictsViolated_of_mem (gitopsModuleBuilder env am rl) provided
        { name := "gitopsConfigFile", conflicts := some "bootstrapRepoUrl" }
        "bootstrapRepoUrl" (by simp [gitopsModuleBuilder]) rfl h1 h2
  · rintro ⟨h1, h2⟩
    constructor
    · exact conflictsViolated_of_mem (gitopsNamespaceBuilder env am rl) provided
        { name := "gitopsCredentialsFile", conflicts := some "token" }
        "token" (by simp [gitopsNamespaceBuilder]) rfl h1 h2
    · exact conflictsViolated_of_mem (gitopsModuleBuilder env am rl) provided
        { name := "gitopsCredentialsFile", conflicts := some "token" }
        "token" (by simp [gitopsModuleBuilder]) rfl h1 h2

/-- C5 witness: on the concrete command line providing all four options,
both commands' declared conflicts reject the parse. -/
theorem c5_conflicting_options_witness :
    conflictsViolated
        (gitopsNamespaceBuilder { LOCK := none, IGNORE_DIFF := none } false false)
        ["gitopsConfigFile", "bootstrapRepoUrl", "gitopsCredentialsFile", "token"] = true
    ∧ conflictsViolated
        (gitopsModuleBuilder { LOCK := none, IGNORE_DIFF := none } false false)
        ["gitopsConfigFile", "bootstrapRepoUrl", "gitopsCredentialsFile", "token"] = true := by
  have h := c5_conflicting_options { LOCK := none, IGNORE_DIFF := none } false false
    ["gitopsConfigFile", "bootstrapRepoUrl", "gitopsCredentialsFile", "token"]
  exact h.2.2.2.2.2.2.2.2.1 ⟨by simp, by simp⟩

/-- C6: for both commands the lock option's choices are exactly optimistic,
pessimistic, branch, o, p and b, and its default is the LOCK environment
variable when set and non-empty, otherwise the string branch. -/
theorem c6_lock_option (env : ProcessEnv) (am rl : Bool) :
    (findOption (gitopsNamespaceBuilder env am rl) "lock" =
      some { name := "lock",
             choices := ["optimistic", "pessimistic", "branch", "o", "p", "b"],
             defaultVal := YargsDefault.str (jsOrElse env.LOCK "branch") })
    ∧ (findOption (gitopsModuleBuilder env am rl) "lock" =
      some { name := "lock",
             choices := ["optimistic", "pessimistic", "branch", "o", "p", "b"],
             defaultVal := YargsDefault.str (jsOrElse env.LOCK "branch") })
    ∧ (∀ s : String, s ≠ "" → jsOrElse (some s) "branch" = s)
    ∧ jsOrElse (some "") "branch" = "branch"
    ∧ jsOrElse none "branch" = "branch" := by
  refine ⟨rfl, rfl, ?_, rfl, rfl⟩
  intro s hs
  simp [jsOrElse, hs]

/-- C6 witness: with LOCK set to pessimistic the default is pessimistic. -/
theorem c6_lock_option_witness :
    findOption (gitopsNamespaceBuilder { LOCK := some "pessimistic", IGNORE_DIFF := none }
        false false) "lock" =
      some { name := "lock",
             choices := ["optimistic", "pessimistic", "branch", "o", "p", "b"],
             defaultVal := YargsDefault.str "pessimistic" } :=
  (c6_lock_option { LOCK := some "pessimistic", IGNORE_DIFF := none } false false).1

/-- C7 counterexample: the gitops-module command's tmpDir option defaults
to the string /tmp/gitops-module, which is not the claimed string
/tmp/gitops-module/ (the trailing slash is missing). -/
theorem c7_module_tmpDir_counterexample :
    (findOption (gitopsModuleBuilder { LOCK := none, IGNORE_DIFF := none } false false)
        "tmpDir").map YargsOption.defaultVal = some (YargsDefault.str "/tmp/gitops-module")
    ∧ YargsDefault.str "/tmp/gitops-module" ≠ YargsDefault.str "/tmp/gitops-module/" := by
  exact ⟨rfl, by decide⟩

/-- C7 amended: the gitops-namespace command's tmpDir option defaults to
/tmp/gitops-module/ while the gitops-module command's tmpDir option
defaults to /tmp/gitops-module, without the trailing slash. -/
theorem c7_tmpDir_defaults (env : ProcessEnv) (am rl : Bool) :
    ((findOption (gitopsNamespaceBuilder env am rl) "tmpDir").map YargsOption.defaultVal =
      some (YargsDefault.str "/tmp/gitops-module/"))
    ∧ ((findOption (gitopsModuleBuilder env am rl) "tmpDir").map YargsOption.defaultVal =
      some (YargsDefault.str "/tmp/gitops-module")) :=
  ⟨rfl, rfl⟩

/-- C8: the gitops-namespace handler forwards the parsed arguments with
isNamespace forced to true and layer forced to the infrastructure layer,
and every other field unchanged. -/
theorem c8_namespace_handler_frame (argv : GitopsArgs) :
    (gitopsNamespaceHandlerArgs argv).isNamespace = some true
    ∧ (gitopsNamespaceHandlerArgs argv).layer = some "infrastructure"
    ∧ (gitopsNamespaceHandlerArgs argv).name = argv.name
    ∧ (gitopsNamespaceHandlerArgs argv).contentDir = argv.contentDir
    ∧ (gitopsNamespaceHandlerArgs argv).«namespace» = argv.«namespace»
    ∧ (gitopsNamespaceHandlerArgs argv).gitopsConfigFile = argv.gitopsConfigFile
    ∧ (gitopsNamespaceHandlerArgs argv).bootstrapRepoUrl = argv.bootstrapRepoUrl
    ∧ (gitopsNamespaceHandlerArgs argv).gitopsCredentialsFile = argv.gitopsCredentialsFile
    ∧ (gitopsNamespaceHandlerArgs argv).token = argv.token
    ∧ (gitopsNamespaceHandlerArgs argv).applicationPath = argv.applicationPath
    ∧ (gitopsNamespaceHandlerArgs argv).branch = argv.branch
    ∧ (gitopsNamespaceHandlerArgs argv).serverName = argv.serverName
    ∧ (gitopsNamespaceHandlerArgs argv).valueFiles = argv.valueFiles
    ∧ (gitopsNamespaceHandlerArgs argv).lock = argv.lock
    ∧ (gitopsNamespaceHandlerArgs argv).autoMerge = argv.autoMerge
    ∧ (gitopsNamespaceHandlerArgs argv).delete = argv.delete
    ∧ (gitopsNamespaceHandlerArgs argv).ignoreDiff = argv.ignoreDiff
    ∧ (gitopsNamespaceHandlerArgs argv).rateLimit = argv.rateLimit
    ∧ (gitopsNamespaceHandlerArgs argv).cascadingDelete = argv.cascadingDelete
    ∧ (gitopsNamespaceHandlerArgs argv).tmpDir = argv.tmpDir
    ∧ (gitopsNamespaceHandlerArgs argv).debug = argv.debug := by
  refine ⟨rfl, rfl, rfl, rfl, rfl, rfl, rfl, rfl, rfl, rfl, rfl,
    rfl, rfl, rfl, rfl, rfl, rfl, rfl, rfl, rfl, rfl⟩

/-- C9: setupTektonPipelineSA issues an update exactly when the pipeline
service-account user is absent from the privileged SCC's users list; a
second call on the resulting state issues no update and changes nothing;
when the user was present the call changes nothing, and when it was absent
the call appends it once, so the entry is never duplicated. -/
theorem c9_setupTektonPipelineSA_idempotent (ns : String) (scc : SecurityContextContraints) :
    ((setupTektonPipelineSA ns scc).2 = true ↔ pipelineSAUser ns ∉ scc.users)
    ∧ (setupTektonPipelineSA ns (setupTektonPipelineSA ns scc).1 =
        ((setupTektonPipelineSA ns scc).1, false))
    ∧ (pipelineSAUser ns ∈ scc.users → setupTektonPipelineSA ns scc = (scc, false))
    ∧ (pipelineSAUser ns ∉ scc.users →
        (setupTektonPipelineSA ns scc).1.users = scc.users ++ [pipelineSAUser ns]
        ∧ (setupTektonPipelineSA ns scc).1.users.count (pipelineSAUser ns) =
            scc.users.count (pipelineSAUser ns) + 1
        ∧ scc.users.count (pipelineSAUser ns) = 0) := by
  by_cases h : pipelineSAUser ns ∈ scc.users
  · have hc : scc.users.contains (pipelineSAUser ns) = true := List.elem_eq_true_of_mem h
    have hpos : setupTektonPipelineSA ns scc = (scc, false) := by
      simp [setupTektonPipelineSA, hc, h]
    refine ⟨?_, ?_, fun _ => hpos, fun hn => absurd h hn⟩
    · rw [hpos]
      simp [h]
    · rw [hpos]
      exact hpos
  · have hc : scc.users.contains (pipelineSAUser ns) = false := by
      cases hcc : scc.users.contains (pipelineSAUser ns)
      · rfl
      · exact absurd (List.mem_of_elem_eq_true hcc) h
    have hneg : setupTektonPipelineSA ns scc =
        ({ metadataName := scc.metadataName, users := scc.users ++ [pipelineSAUser ns] }, true) := by
      simp [setupTektonPipelineSA, hc, h]
    have hmem2 : pipelineSAUser ns ∈ scc.users ++ [pipelineSAUser ns] :=
      List.mem_append_right _ (List.mem_singleton.mpr rfl)
    have hc2 : (scc.users ++ [pipelineSAUser ns]).contains (pipelineSAUser ns) = true :=
      List.elem_eq_true_of_mem hmem2
    have hsecond : setupTektonPipelineSA ns
        ({ metadataName := scc.metadataName, users := scc.users ++ [pipelineSAUser ns] } :
          SecurityContextContraints) =
        ({ metadataName := scc.metadataName, users := scc.users ++ [pipelineSAUser ns] }, false) := by
      simp [setupTektonPipelineSA, hc2, hmem2]
    refine ⟨?_, ?_, fun hm => absurd hm h, fun _ => ?_⟩
    · rw [hneg]
      simp [h]
    · rw [hneg]
      exact hsecond
    · rw [hneg]
      refine ⟨rfl, ?_, List.count_eq_zero.mpr h⟩
      simp [List.count_append]

/-- C9 witness: on the concrete namespace dev and a privileged SCC that
does not yet list the pipeline service account, the first call appends the
entry once and updates, and the second call is a no-op. -/
theorem c9_setupTektonPipelineSA_witness :
    (setupTektonPipelineSA "dev"
        { metadataName := "privileged", users := ["system:admin"] }).2 = true
    ∧ setupTektonPipelineSA "dev"
        (setupTektonPipelineSA "dev"
          { metadataName := "privileged", users := ["system:admin"] }).1 =
        ((setupTektonPipelineSA "dev"
          { metadataName := "privileged", users := ["system:admin"] }).1, false)
    ∧ (setupTektonPipelineSA "dev"
        { metadataName := "privileged", users := ["system:admin"] }).1.users.count
          (pipelineSAUser "dev") = 1 := by
  have h := c9_setupTektonPipelineSA_idempotent "dev"
    { metadataName := "privileged", users := ["system:admin"] }
  have habs : pipelineSAUser "dev" ∉
      ({ metadataName := "privileged", users := ["system:admin"] } :
        SecurityContextContraints).users := by
    decide
  refine ⟨h.1.mpr habs, h.2.1, ?_⟩
  have hcount := (h.2.2.2 habs).2
  rw [hcount.1, hcount.2]

/-- C10: copying a namespace's config maps, secrets or Tekton pipelines
onto itself returns immediately and issues no copyAll call at all. -/
theorem c10_copy_to_self_is_noop (n : String) :
    copyConfigMaps n n = none ∧ copySecrets n n = none ∧ copyPipelines n n = none := by
  refine ⟨?_, ?_, ?_⟩ <;> simp [copyConfigMaps, copySecrets, copyPipelines]

end GarageCloudCli
